import Mathlib

/-!
Verification of the real-time job-progress pipeline of the Auto-Insight
repository.

The client side is embedded from `src/unnamed/part_002` (the `RealTimeService`
class, lines 90-159): its instance fields become a state record, each
callback handler (`onopen`, `onmessage`, `onclose`, `onerror`), the
`setTimeout` reconnect callback, and the public methods `connect` /
`disconnect` become state transformers, and a run of the JavaScript event
loop becomes a fold of those transformers over a list of events.  The state
record also carries instrumentation fields (`connectCalls`, `totalScheduled`,
`onErrorCalls`, `handlerCalls`, `caughtErrors`) that count the externally
observable actions the class performs; the code itself never reads them.

The backend Job Runner is not part of the sources (only the frontend is), so
it is modelled from the specification, as marked on its definitions.
-/

namespace AutoInsight

/-- Job / wire-message status values: the closed enum
`queued | running | completed | failed` of the wire schema. -/
inductive JStatus : Type
  | queued
  | running
  | completed
  | failed
  deriving DecidableEq, Repr

/-- A progress event as carried on the wire: status, progress percentage and
a human-readable message (the `job_id` field is fixed per connection and
omitted). -/
structure ProgressEvent : Type where
  status : JStatus
  progress : Nat
  message : String
  deriving DecidableEq, Repr

namespace RealTimeService

/-- The reconnect-attempt cap of `RealTimeService`:
`private maxReconnectAttempts = 5` (src/unnamed/part_002, line 93).
It is never mutated, so it is embedded as a constant. -/
def maxReconnectAttempts : Nat := 5

/-- The fixed backoff delay of `RealTimeService`:
`private reconnectInterval = 3000` (src/unnamed/part_002, line 94).
It is never mutated, so it is embedded as a constant. -/
def reconnectInterval : Nat := 3000

/-- The mutable state of one `RealTimeService` instance.

Fields from the class: `jobId` (constructor argument, immutable),
`ws` (the current `WebSocket` or `null`, modelled as a socket id paired with
the job it connects to), `reconnectAttempts`.

Environment bookkeeping: `nextSocketId` supplies fresh ids for
`new WebSocket(...)`, `pendingTimers` records the delays of `setTimeout`
reconnect callbacks that have been scheduled but have not fired yet.

Instrumentation of observable actions (write-only for the code):
`connectCalls` counts `WebSocket` constructions, `totalScheduled` counts
reconnect timers ever scheduled, `onErrorCalls` counts invocations of the
caller-supplied `onError` callback, `handlerCalls` lists the parsed payloads
on which the caller-supplied `onMessage` handler was invoked, in order, and
`caughtErrors` counts executions of the `catch` branch of the `onmessage`
handler. -/
structure RTState : Type where
  jobId : String
  ws : Option (Nat × String)
  reconnectAttempts : Nat
  nextSocketId : Nat
  pendingTimers : List Nat
  connectCalls : Nat
  totalScheduled : Nat
  onErrorCalls : Nat
  handlerCalls : List Nat
  caughtErrors : Nat
  deriving DecidableEq, Repr

/-- State of a freshly constructed `RealTimeService(jobId)`:
`ws = null`, `reconnectAttempts = 0`, nothing scheduled, nothing observed. -/
def rtInit (jobId : String) : RTState :=
  { jobId := jobId
    ws := none
    reconnectAttempts := 0
    nextSocketId := 0
    pendingTimers := []
    connectCalls := 0
    totalScheduled := 0
    onErrorCalls := 0
    handlerCalls := []
    caughtErrors := 0 }

/-- State effect of the body of `connect(onMessage, onError)`
(src/unnamed/part_002, lines 98-134): `this.ws = new WebSocket(wsUrl)` where
the URL is built from `this.jobId`.  A fresh socket bound to `jobId` becomes
the current socket and one more connection attempt is recorded.  The handler
assignments have no state effect of their own; the handlers are run by the
event loop (see `stepRT`). -/
def connect (s : RTState) : RTState :=
  { s with
    ws := some (s.nextSocketId, s.jobId)
    nextSocketId := s.nextSocketId + 1
    connectCalls := s.connectCalls + 1 }

/-- The `onopen` handler (lines 104-108): `this.reconnectAttempts = 0` and
resolve the promise. -/
def handleOpen (s : RTState) : RTState :=
  { s with reconnectAttempts := 0 }

/-- `attemptReconnect(onMessage, onError)` (lines 136-147): if
`reconnectAttempts < maxReconnectAttempts`, increment the counter and
schedule `setTimeout(... connect ..., reconnectInterval)`; otherwise do
nothing.  The timeout id returned by `setTimeout` is discarded by the code,
so a scheduled timer can never be cancelled. -/
def attemptReconnect (s : RTState) : RTState :=
  if s.reconnectAttempts < maxReconnectAttempts then
    { s with
      reconnectAttempts := s.reconnectAttempts + 1
      totalScheduled := s.totalScheduled + 1
      pendingTimers := s.pendingTimers ++ [reconnectInterval] }
  else s

/-- The `onclose` handler (lines 119-122): log, then unconditionally call
`this.attemptReconnect(onMessage, onError)` — there is no check of why or
whether on purpose the socket closed. -/
def handleClose (s : RTState) : RTState :=
  attemptReconnect s

/-- The `onerror` handler (lines 124-128): log, `if (onError) onError(error)`,
then reject the promise.  We model the caller-supplied `onError` as present,
so each error event records one invocation of it. -/
def handleError (s : RTState) : RTState :=
  { s with onErrorCalls := s.onErrorCalls + 1 }

/-- The `onmessage` handler (lines 110-117):
`try { const data = JSON.parse(event.data); onMessage(data) } catch { log }`.
A raw payload is modelled by its parse outcome `raw : Option Nat`
(`none` = `JSON.parse` throws); the caller-supplied handler by
`h : Nat → Except Nat Unit` (`Except.error` = the handler throws).  Both a
parse failure and a handler exception land in the same `catch`, which only
logs. -/
def handleMessage (h : Nat → Except Nat Unit) (raw : Option Nat)
    (s : RTState) : RTState :=
  match raw with
  | none => { s with caughtErrors := s.caughtErrors + 1 }
  | some d =>
    match h d with
    | Except.ok _ => { s with handlerCalls := s.handlerCalls ++ [d] }
    | Except.error _ =>
      { s with
        handlerCalls := s.handlerCalls ++ [d]
        caughtErrors := s.caughtErrors + 1 }

/-- `disconnect()` (lines 149-154): `if (this.ws) { this.ws.close();
this.ws = null }`.  It closes and forgets the current socket; it does not
touch `reconnectAttempts` and it holds no timer handle, so `pendingTimers`
is left as it is. -/
def disconnect (s : RTState) : RTState :=
  match s.ws with
  | some _ => { s with ws := none }
  | none => s

/-- A scheduled reconnect timeout fires (the callback of lines 141-145):
remove the timer from the pending set and run
`this.connect(onMessage, onError).catch(() => ...)` — the body is exactly
`connect`; the `.catch` swallows the rejection and has no state effect. -/
def fireTimer (s : RTState) : RTState :=
  match s.pendingTimers with
  | [] => s
  | _ :: rest => connect { s with pendingTimers := rest }

/-- The events the JavaScript event loop can deliver to one
`RealTimeService` instance: the two public method calls by the caller, the
four socket callbacks (fired by the environment on the socket they were
attached to — a socket that `disconnect` already nulled out still fires
them), and the expiry of a scheduled reconnect timeout. -/
inductive RTEvent : Type
  | userConnect
  | userDisconnect
  | socketOpen
  | socketMessage (raw : Option Nat)
  | socketClose
  | socketError
  | timerFire
  deriving DecidableEq, Repr

/-- One event-loop step of a `RealTimeService` instance whose caller
supplied the message handler `h`. -/
def stepRT (h : Nat → Except Nat Unit) (s : RTState) : RTEvent → RTState
  | RTEvent.userConnect => connect s
  | RTEvent.userDisconnect => disconnect s
  | RTEvent.socketOpen => handleOpen s
  | RTEvent.socketMessage raw => handleMessage h raw s
  | RTEvent.socketClose => handleClose s
  | RTEvent.socketError => handleError s
  | RTEvent.timerFire => fireTimer s

/-- Run of the event loop over a list of events. -/
def runRT (h : Nat → Except Nat Unit) (s : RTState) : List RTEvent → RTState
  | [] => s
  | e :: es => runRT h (stepRT h s e) es

/-- A message handler that always succeeds (used to instantiate runs whose
claims do not depend on the handler). -/
def hOk : Nat → Except Nat Unit := fun _ => Except.ok ()

end RealTimeService

/-- One named, weighted step of a Stage Plan. -/
structure Stage : Type where
  name : String
  weight : Nat
  deriving DecidableEq, Repr

/-- Total weight of a Stage Plan. -/
def sumWeights (stages : List Stage) : Nat :=
  (stages.map Stage.weight).sum

/-- Whether a status is terminal (`completed` or `failed`). -/
def isTerminal : JStatus → Bool
  | JStatus.completed => true
  | JStatus.failed => true
  | JStatus.queued => false
  | JStatus.running => false

/-- Modelled from the spec: the backend Job Runner is not among the source
files (only the frontend is present), so its stage loop is taken from the
specification.  `runPlanFrom work stages acc` executes the remaining
`stages` in order, `acc` being the cumulative weight of the stages already
completed; `work st` is the opaque per-stage callable, `true` meaning
success.  Each successful non-final stage publishes a `running` event with
the new cumulative progress and the stage name; a failing stage publishes
one terminal `failed` event with the last reached progress and stops; the
final stage's successful event is the terminal `completed` event (the
reference 11-stage plan ends in a `Complete` stage that brings the
cumulative weight to 100). -/
def runPlanFrom (work : Stage → Bool) : List Stage → Nat → List ProgressEvent
  | [], _acc => []
  | [st], acc =>
    if work st then [⟨JStatus.completed, acc + st.weight, st.name⟩]
    else [⟨JStatus.failed, acc, st.name⟩]
  | st :: st2 :: rest, acc =>
    if work st then
      ⟨JStatus.running, acc + st.weight, st.name⟩
        :: runPlanFrom work (st2 :: rest) (acc + st.weight)
    else [⟨JStatus.failed, acc, st.name⟩]

/-- Modelled from the spec: a full Job Runner execution of a Stage Plan,
starting from progress 0. -/
def runPlan (work : Stage → Bool) (stages : List Stage) : List ProgressEvent :=
  runPlanFrom work stages 0

/-- The 11-stage Live EDA Analysis plan of the reference behaviour
(src/README.md, lines 180-193): cumulative progress
5, 15, 25, 35, 45, 55, 65, 75, 85, 95, 100. -/
def edaPlan : List Stage :=
  [⟨"Data Loading & Validation", 5⟩,
   ⟨"Basic Statistics", 10⟩,
   ⟨"Missing Values Analysis", 10⟩,
   ⟨"Distribution Analysis", 10⟩,
   ⟨"Correlation Analysis", 10⟩,
   ⟨"Feature Importance", 10⟩,
   ⟨"Outlier Detection", 10⟩,
   ⟨"Data Quality Report", 10⟩,
   ⟨"Visualization Generation", 10⟩,
   ⟨"Summary & Recommendations", 10⟩,
   ⟨"Complete", 5⟩]

section Claims

open RealTimeService

/-- Claim C4: for the Reconnecting Client, the reconnect attempt counter
resets to zero upon any successful connection or reconnection: whenever the
socket open event fires, `reconnectAttempts` equals 0 immediately
afterwards. -/
theorem open_resets_reconnectAttempts (h : Nat → Except Nat Unit) (s : RTState) :
    (stepRT h s RTEvent.socketOpen).reconnectAttempts = 0 := rfl

/-- Claim C8: `disconnect()` is idempotent: a second (or any further) call on
an already disconnected instance is a no-op that leaves the state unchanged
and raises no error. -/
theorem disconnect_idempotent (h : Nat → Except Nat Unit) (s : RTState) :
    stepRT h (stepRT h s RTEvent.userDisconnect) RTEvent.userDisconnect
        = stepRT h s RTEvent.userDisconnect ∧
    (s.ws = none → stepRT h s RTEvent.userDisconnect = s) := by
  constructor
  · cases hw : s.ws <;> simp [stepRT, disconnect, hw]
  · intro hw; simp [stepRT, disconnect, hw]

/-- Witness for C8 at a freshly constructed (hence disconnected) instance. -/
theorem disconnect_idempotent_witness :
    stepRT hOk (stepRT hOk (rtInit "j") RTEvent.userDisconnect)
        RTEvent.userDisconnect
      = stepRT hOk (rtInit "j") RTEvent.userDisconnect ∧
    stepRT hOk (rtInit "j") RTEvent.userDisconnect = rtInit "j" :=
  ⟨(disconnect_idempotent hOk (rtInit "j")).1,
   (disconnect_idempotent hOk (rtInit "j")).2 rfl⟩

/-- Claim C9: the `onclose` handler does not distinguish expected from
unexpected closure — every socket close event (including the normal closure
after a finished job) runs `attemptReconnect`, so whenever
`reconnectAttempts < 5` a reconnect timer is scheduled, and when that timer
fires the client reconnects to the same job id. -/
theorem close_always_attempts_reconnect (h : Nat → Except Nat Unit)
    (s : RTState) :
    stepRT h s RTEvent.socketClose = attemptReconnect s ∧
    (s.reconnectAttempts < maxReconnectAttempts →
      (stepRT h s RTEvent.socketClose).pendingTimers
          = s.pendingTimers ++ [reconnectInterval] ∧
      (stepRT h s RTEvent.socketClose).totalScheduled = s.totalScheduled + 1 ∧
      (s.pendingTimers = [] →
        (runRT h s [RTEvent.socketClose, RTEvent.timerFire]).ws
          = some (s.nextSocketId, s.jobId))) := by
  refine ⟨rfl, fun hlt => ⟨?_, ?_, fun hpt => ?_⟩⟩
  · simp [stepRT, handleClose, attemptReconnect, hlt]
  · simp [stepRT, handleClose, attemptReconnect, hlt]
  · simp [runRT, stepRT, handleClose, attemptReconnect, hlt, hpt,
      fireTimer, connect]

/-- Witness for C9 at a freshly constructed instance (counter 0, no pending
timer). -/
theorem close_always_attempts_reconnect_witness :
    stepRT hOk (rtInit "j") RTEvent.socketClose
        = attemptReconnect (rtInit "j") ∧
    (stepRT hOk (rtInit "j") RTEvent.socketClose).pendingTimers
        = [reconnectInterval] ∧
    (stepRT hOk (rtInit "j") RTEvent.socketClose).totalScheduled = 1 ∧
    (runRT hOk (rtInit "j") [RTEvent.socketClose, RTEvent.timerFire]).ws
        = some (0, "j") :=
  ⟨(close_always_attempts_reconnect hOk (rtInit "j")).1,
   ((close_always_attempts_reconnect hOk (rtInit "j")).2 (by decide)).1,
   ((close_always_attempts_reconnect hOk (rtInit "j")).2 (by decide)).2.1,
   ((close_always_attempts_reconnect hOk (rtInit "j")).2 (by decide)).2.2 rfl⟩

/-- Claim C1, counterexample: a concrete run in which a reconnect timer is
pending, `disconnect()` is called and returns, and afterwards the timer
fires and a further connection attempt (`new WebSocket`) is made — the
claim that no further connection attempt ever happens after `disconnect()`
is false.  Trace: `connect()`, the socket closes unexpectedly (scheduling a
backoff timer), the caller invokes `disconnect()`, the timer fires. -/
theorem disconnect_during_backoff_cex :
    (runRT hOk (rtInit "j")
        [RTEvent.userConnect, RTEvent.socketClose]).pendingTimers = [3000] ∧
    (runRT hOk (rtInit "j")
        [RTEvent.userConnect, RTEvent.socketClose,
         RTEvent.userDisconnect]).ws = none ∧
    (runRT hOk (rtInit "j")
        [RTEvent.userConnect, RTEvent.socketClose,
         RTEvent.userDisconnect]).connectCalls = 1 ∧
    (runRT hOk (rtInit "j")
        [RTEvent.userConnect, RTEvent.socketClose, RTEvent.userDisconnect,
         RTEvent.timerFire]).connectCalls = 2 := by
  decide

/-- Claim C1, amended: `disconnect()` closes and nulls the active socket if
one exists, but it stores no timer handle and cancels nothing — every
pending reconnect timer survives `disconnect()`, and when such a timer
fires a further connection attempt is made. -/
theorem disconnect_keeps_timers (h : Nat → Except Nat Unit) (s : RTState) :
    (stepRT h s RTEvent.userDisconnect).ws = none ∧
    (stepRT h s RTEvent.userDisconnect).pendingTimers = s.pendingTimers ∧
    (stepRT h s RTEvent.userDisconnect).connectCalls = s.connectCalls ∧
    (s.pendingTimers ≠ [] →
      (runRT h s [RTEvent.userDisconnect, RTEvent.timerFire]).connectCalls
        = s.connectCalls + 1) := by
  refine ⟨?_, ?_, ?_, fun hpt => ?_⟩
  · cases hw : s.ws <;> simp [stepRT, disconnect, hw]
  · cases hw : s.ws <;> simp [stepRT, disconnect, hw]
  · cases hw : s.ws <;> simp [stepRT, disconnect, hw]
  · cases hq : s.pendingTimers with
    | nil => exact absurd hq hpt
    | cons d rest =>
      cases hw : s.ws <;>
        simp [runRT, stepRT, disconnect, hw, fireTimer, hq, connect]

/-- Witness for the amended C1 at a state with one pending backoff timer. -/
theorem disconnect_keeps_timers_witness :
    (stepRT hOk (runRT hOk (rtInit "j")
        [RTEvent.userConnect, RTEvent.socketClose])
        RTEvent.userDisconnect).ws = none ∧
    (stepRT hOk (runRT hOk (rtInit "j")
        [RTEvent.userConnect, RTEvent.socketClose])
        RTEvent.userDisconnect).pendingTimers = [3000] ∧
    (runRT hOk (runRT hOk (rtInit "j")
        [RTEvent.userConnect, RTEvent.socketClose])
        [RTEvent.userDisconnect, RTEvent.timerFire]).connectCalls = 2 :=
  ⟨(disconnect_keeps_timers hOk (runRT hOk (rtInit "j")
      [RTEvent.userConnect, RTEvent.socketClose])).1,
   (disconnect_keeps_timers hOk (runRT hOk (rtInit "j")
      [RTEvent.userConnect, RTEvent.socketClose])).2.1,
   (disconnect_keeps_timers hOk (runRT hOk (rtInit "j")
      [RTEvent.userConnect, RTEvent.socketClose])).2.2.2 (by decide)⟩

/-- Claim C3, counterexample: the caller-visible error signal (the
`onError` callback) is not delivered exactly when the reconnect attempts
are exhausted — in this concrete run `onError` has already been invoked
twice while only one of the five reconnect attempts has been used.  Trace:
`connect()`, the connection errors and closes, the backoff timer fires, the
reconnect attempt errors as well. -/
theorem error_signal_not_terminal_cex :
    (runRT hOk (rtInit "j")
        [RTEvent.userConnect, RTEvent.socketError, RTEvent.socketClose,
         RTEvent.timerFire, RTEvent.socketError]).onErrorCalls = 2 ∧
    (runRT hOk (rtInit "j")
        [RTEvent.userConnect, RTEvent.socketError, RTEvent.socketClose,
         RTEvent.timerFire, RTEvent.socketError]).reconnectAttempts = 1 ∧
    (runRT hOk (rtInit "j")
        [RTEvent.userConnect, RTEvent.socketError, RTEvent.socketClose,
         RTEvent.timerFire, RTEvent.socketError]).totalScheduled = 1 := by
  decide

/-- Claim C3, amended: once the attempt counter has reached the maximum the
client stops retrying, and a further close event changes nothing at all —
in particular no additional, distinguishable terminal error is surfaced at
exhaustion; instead the `onError` callback fires on every socket error
event (every failed attempt), not only at exhaustion. -/
theorem exhausted_stops_silently (h : Nat → Except Nat Unit) (s : RTState)
    (hmax : ¬ s.reconnectAttempts < maxReconnectAttempts) :
    stepRT h s RTEvent.socketClose = s ∧
    (stepRT h s RTEvent.socketError).onErrorCalls = s.onErrorCalls + 1 := by
  constructor
  · simp [stepRT, handleClose, attemptReconnect, hmax]
  · rfl

/-- Witness for the amended C3 at a state whose attempt counter is
exhausted. -/
theorem exhausted_stops_silently_witness :
    stepRT hOk
        { rtInit "j" with reconnectAttempts := 5 } RTEvent.socketClose
      = { rtInit "j" with reconnectAttempts := 5 } ∧
    (stepRT hOk { rtInit "j" with reconnectAttempts := 5 }
        RTEvent.socketError).onErrorCalls = 1 :=
  exhausted_stops_silently hOk
    { rtInit "j" with reconnectAttempts := 5 } (by decide)

/-- A message handler that always throws (used to instantiate runs that
exercise the `catch` branch on well-formed messages). -/
def hErr : Nat → Except Nat Unit := fun _ => Except.error 7

/-- Step lemma for C2: any event other than a socket open preserves the
invariant that the number of reconnect timers ever scheduled equals the
attempt counter and that the counter is at most the maximum. -/
theorem stepRT_sched_invariant (h : Nat → Except Nat Unit) (s : RTState)
    (e : RTEvent) (he : e ≠ RTEvent.socketOpen)
    (h1 : s.totalScheduled = s.reconnectAttempts)
    (h2 : s.reconnectAttempts ≤ maxReconnectAttempts) :
    (stepRT h s e).totalScheduled = (stepRT h s e).reconnectAttempts ∧
    (stepRT h s e).reconnectAttempts ≤ maxReconnectAttempts := by
  cases e with
  | socketOpen => exact absurd rfl he
  | socketClose =>
    by_cases hlt : s.reconnectAttempts < maxReconnectAttempts
    · refine ⟨?_, ?_⟩ <;>
        simp only [stepRT, handleClose, attemptReconnect, if_pos hlt]
      · simpa using h1
      · simpa using hlt
    · simp only [stepRT, handleClose, attemptReconnect, if_neg hlt]
      exact ⟨h1, h2⟩
  | userConnect => exact ⟨h1, h2⟩
  | socketError => exact ⟨h1, h2⟩
  | userDisconnect => cases hw : s.ws <;> simp [stepRT, disconnect, hw, h1, h2]
  | socketMessage raw =>
    cases raw with
    | none => exact ⟨h1, h2⟩
    | some d => cases hd : h d <;> simp [stepRT, handleMessage, hd, h1, h2]
  | timerFire =>
    cases hq : s.pendingTimers <;>
      simp [stepRT, fireTimer, hq, connect, h1, h2]

/-- Run lemma for C2: over any event list with no socket open event, the
scheduling invariant is preserved. -/
theorem runRT_sched_invariant (h : Nat → Except Nat Unit) (es : List RTEvent) :
    ∀ s : RTState, (∀ e ∈ es, e ≠ RTEvent.socketOpen) →
      s.totalScheduled = s.reconnectAttempts →
      s.reconnectAttempts ≤ maxReconnectAttempts →
      (runRT h s es).totalScheduled = (runRT h s es).reconnectAttempts ∧
      (runRT h s es).reconnectAttempts ≤ maxReconnectAttempts := by
  induction es with
  | nil => intro s _ h1 h2; exact ⟨h1, h2⟩
  | cons e rest ih =>
    intro s hno h1 h2
    have he : e ≠ RTEvent.socketOpen := hno e (List.mem_cons_self e rest)
    have hstep := stepRT_sched_invariant h s e he h1 h2
    exact ih (stepRT h s e)
      (fun x hx => hno x (List.mem_cons_of_mem e hx)) hstep.1 hstep.2

/-- Step lemma for C2: every delay ever placed in the pending-timer set is
the fixed `reconnectInterval`. -/
theorem stepRT_timers_fixed (h : Nat → Except Nat Unit) (s : RTState)
    (e : RTEvent) (ht : ∀ d ∈ s.pendingTimers, d = reconnectInterval) :
    ∀ d ∈ (stepRT h s e).pendingTimers, d = reconnectInterval := by
  cases e with
  | socketOpen => exact ht
  | userConnect => exact ht
  | socketError => exact ht
  | userDisconnect => cases hw : s.ws <;> simpa [stepRT, disconnect, hw] using ht
  | socketMessage raw =>
    cases raw with
    | none => exact ht
    | some d => cases hd : h d <;> simpa [stepRT, handleMessage, hd] using ht
  | socketClose =>
    by_cases hlt : s.reconnectAttempts < maxReconnectAttempts
    · intro d hd
      simp only [stepRT, handleClose, attemptReconnect, if_pos hlt,
        List.mem_append, List.mem_singleton] at hd
      rcases hd with hd | hd
      · exact ht d hd
      · exact hd
    · simpa [stepRT, handleClose, attemptReconnect, hlt] using ht
  | timerFire =>
    cases hq : s.pendingTimers with
    | nil => simp [stepRT, fireTimer, hq]
    | cons d0 rest =>
      intro d hd
      simp only [stepRT, fireTimer, hq, connect] at hd
      exact ht d (by simp [hq, hd])

/-- Run lemma for C2: the fixed-delay property of pending timers is
preserved by any run. -/
theorem runRT_timers_fixed (h : Nat → Except Nat Unit) (es : List RTEvent) :
    ∀ s : RTState, (∀ d ∈ s.pendingTimers, d = reconnectInterval) →
      ∀ d ∈ (runRT h s es).pendingTimers, d = reconnectInterval := by
  induction es with
  | nil => intro s ht; exact ht
  | cons e rest ih =>
    intro s ht
    exact ih (stepRT h s e) (stepRT_timers_fixed h s e ht)

/-- Claim C2: on any run of a freshly constructed client in which the
attempt counter is never reset (no socket open event), at most 5 reconnect
attempts are ever scheduled (`maxReconnectAttempts = 5`), and every
scheduled backoff timer waits the fixed 3000 ms interval. -/
theorem reconnect_attempts_bounded (h : Nat → Except Nat Unit)
    (jobId : String) (es : List RTEvent)
    (hno : ∀ e ∈ es, e ≠ RTEvent.socketOpen) :
    (runRT h (rtInit jobId) es).totalScheduled ≤ 5 ∧
    maxReconnectAttempts = 5 ∧ reconnectInterval = 3000 ∧
    ∀ d ∈ (runRT h (rtInit jobId) es).pendingTimers, d = 3000 := by
  have hinv := runRT_sched_invariant h es (rtInit jobId) hno rfl
    (by simp [rtInit, maxReconnectAttempts])
  refine ⟨?_, rfl, rfl, ?_⟩
  · calc (runRT h (rtInit jobId) es).totalScheduled
        = (runRT h (rtInit jobId) es).reconnectAttempts := hinv.1
      _ ≤ 5 := hinv.2
  · exact runRT_timers_fixed h es (rtInit jobId) (by simp [rtInit])

/-- Witness for C2 on a streak of seven unexpected closures: only five
reconnects get scheduled. -/
theorem reconnect_attempts_bounded_witness :
    (runRT hOk (rtInit "j")
        (List.replicate 7 RTEvent.socketClose)).totalScheduled ≤ 5 ∧
    maxReconnectAttempts = 5 ∧ reconnectInterval = 3000 ∧
    ∀ d ∈ (runRT hOk (rtInit "j")
        (List.replicate 7 RTEvent.socketClose)).pendingTimers, d = 3000 :=
  reconnect_attempts_bounded hOk "j" (List.replicate 7 RTEvent.socketClose)
    (by decide)

/-- Claim C5: inbound messages that fail to parse are ignored — the
caller-supplied handler is not invoked on them and no client state changes
— while every well-formed message is handed to the handler, in the order
received.  Over any burst of inbound messages (`ps` lists their parse
outcomes, `none` meaning malformed) the handler sees exactly the parsed
payloads in order, and socket, attempt counter, timers and connection count
are untouched. -/
theorem malformed_ignored (h : Nat → Except Nat Unit) (s : RTState)
    (ps : List (Option Nat)) :
    (runRT h s (ps.map RTEvent.socketMessage)).handlerCalls
        = s.handlerCalls ++ ps.filterMap id ∧
    (runRT h s (ps.map RTEvent.socketMessage)).ws = s.ws ∧
    (runRT h s (ps.map RTEvent.socketMessage)).reconnectAttempts
        = s.reconnectAttempts ∧
    (runRT h s (ps.map RTEvent.socketMessage)).pendingTimers
        = s.pendingTimers ∧
    (runRT h s (ps.map RTEvent.socketMessage)).connectCalls
        = s.connectCalls := by
  induction ps generalizing s with
  | nil => simp [runRT]
  | cons p rest ih =>
    cases p with
    | none =>
      simp only [List.map_cons, runRT, stepRT, handleMessage,
        List.filterMap_cons_none]
      exact ih { s with caughtErrors := s.caughtErrors + 1 }
    | some d =>
      cases hd : h d with
      | ok u =>
        have := ih { s with handlerCalls := s.handlerCalls ++ [d] }
        simpa [runRT, stepRT, handleMessage, hd, List.append_assoc] using this
      | error v =>
        have := ih { s with handlerCalls := s.handlerCalls ++ [d],
                            caughtErrors := s.caughtErrors + 1 }
        simpa [runRT, stepRT, handleMessage, hd, List.append_assoc] using this

/-- Claim C10: when the caller-supplied handler throws on a well-formed
message, the exception lands in the same try/catch that guards JSON
parsing (logged, one more caught error), does not propagate, changes no
connection state, and subsequent messages are still delivered to the
handler. -/
theorem handler_exception_caught (h : Nat → Except Nat Unit) (s : RTState)
    (d e : Nat) (hthrow : h d = Except.error e) :
    (stepRT h s (RTEvent.socketMessage (some d))).caughtErrors
        = s.caughtErrors + 1 ∧
    (stepRT h s (RTEvent.socketMessage (some d))).handlerCalls
        = s.handlerCalls ++ [d] ∧
    (stepRT h s (RTEvent.socketMessage (some d))).ws = s.ws ∧
    (stepRT h s (RTEvent.socketMessage (some d))).pendingTimers
        = s.pendingTimers ∧
    (stepRT h s (RTEvent.socketMessage (some d))).reconnectAttempts
        = s.reconnectAttempts ∧
    ∀ d2 : Nat,
      (runRT h s [RTEvent.socketMessage (some d),
          RTEvent.socketMessage (some d2)]).handlerCalls
        = s.handlerCalls ++ [d] ++ [d2] := by
  refine ⟨?_, ?_, ?_, ?_, ?_, fun d2 => ?_⟩
  · simp [stepRT, handleMessage, hthrow]
  · simp [stepRT, handleMessage, hthrow]
  · simp [stepRT, handleMessage, hthrow]
  · simp [stepRT, handleMessage, hthrow]
  · simp [stepRT, handleMessage, hthrow]
  · cases hd2 : h d2 <;>
      simp [runRT, stepRT, handleMessage, hthrow, hd2, List.append_assoc]

/-- Witness for C10 with a handler that always throws: both messages reach
the handler, both exceptions are caught. -/
theorem handler_exception_caught_witness :
    (stepRT hErr (rtInit "j") (RTEvent.socketMessage (some 3))).caughtErrors
        = 1 ∧
    (stepRT hErr (rtInit "j") (RTEvent.socketMessage (some 3))).handlerCalls
        = [3] ∧
    (stepRT hErr (rtInit "j") (RTEvent.socketMessage (some 3))).ws = none ∧
    (runRT hErr (rtInit "j") [RTEvent.socketMessage (some 3),
        RTEvent.socketMessage (some 5)]).handlerCalls = [3] ++ [5] :=
  ⟨(handler_exception_caught hErr (rtInit "j") 3 7 rfl).1,
   (handler_exception_caught hErr (rtInit "j") 3 7 rfl).2.1,
   (handler_exception_caught hErr (rtInit "j") 3 7 rfl).2.2.1,
   (handler_exception_caught hErr (rtInit "j") 3 7 rfl).2.2.2.2.2 5⟩

/-- Structure lemma for C6: the event stream of a nonempty plan is a list
of non-terminal events followed by exactly one terminal event. -/
theorem runPlanFrom_one_terminal (work : Stage → Bool) :
    ∀ (stages : List Stage) (acc : Nat), stages ≠ [] →
      ∃ pre e, runPlanFrom work stages acc = pre ++ [e] ∧
        isTerminal e.status = true ∧
        ∀ x ∈ pre, isTerminal x.status = false := by
  intro stages
  induction stages with
  | nil => intro acc hne; exact absurd rfl hne
  | cons st rest ih =>
    intro acc _
    cases rest with
    | nil =>
      by_cases hw : work st = true
      · exact ⟨[], ⟨JStatus.completed, acc + st.weight, st.name⟩,
          by simp [runPlanFrom, hw], rfl, by simp⟩
      · exact ⟨[], ⟨JStatus.failed, acc, st.name⟩,
          by simp [runPlanFrom, hw], rfl, by simp⟩
    | cons st2 rest2 =>
      by_cases hw : work st = true
      · obtain ⟨pre, e, heq, hterm, hpre⟩ :=
          ih (acc + st.weight) (by simp)
        refine ⟨⟨JStatus.running, acc + st.weight, st.name⟩ :: pre, e,
          ?_, hterm, ?_⟩
        · simp [runPlanFrom, hw, heq]
        · intro x hx
          rcases List.mem_cons.mp hx with hx | hx
          · rw [hx]; rfl
          · exact hpre x hx
      · exact ⟨[], ⟨JStatus.failed, acc, st.name⟩,
          by simp [runPlanFrom, hw], rfl, by simp⟩

/-- Claim C6 (spec-modelled Job Runner): for every job run over a valid
Stage Plan (weights summing to 100), the emitted event stream contains
exactly one terminal event (`completed` or `failed`) and that terminal
event is the final event of the stream — no event follows it. -/
theorem job_stream_single_terminal (work : Stage → Bool)
    (stages : List Stage) (hplan : sumWeights stages = 100) :
    ∃ pre e, runPlan work stages = pre ++ [e] ∧
      isTerminal e.status = true ∧
      ∀ x ∈ pre, isTerminal x.status = false := by
  have hne : stages ≠ [] := by
    intro h
    rw [h] at hplan
    simp [sumWeights] at hplan
  exact runPlanFrom_one_terminal work stages 0 hne

/-- Witness for C6 on the reference 11-stage plan, with a stage work that
fails at the Feature Importance stage (scenario 2 of the spec). -/
theorem job_stream_single_terminal_witness :
    ∃ pre e,
      runPlan (fun st => ! (st.name == "Feature Importance")) edaPlan
          = pre ++ [e] ∧
      isTerminal e.status = true ∧
      ∀ x ∈ pre, isTerminal x.status = false :=
  job_stream_single_terminal (fun st => ! (st.name == "Feature Importance"))
    edaPlan (by decide)

/-- Chain lemma for C7: every emitted progress value is at least the
cumulative progress already reached, and consecutive values are
non-decreasing. -/
theorem runPlanFrom_chain (work : Stage → Bool) (stages : List Stage) :
    ∀ acc : Nat, List.Chain (· ≤ ·) acc
      ((runPlanFrom work stages acc).map ProgressEvent.progress) := by
  induction stages with
  | nil =>
    intro acc
    simp only [runPlanFrom, List.map_nil]
    exact List.Chain.nil
  | cons st rest ih =>
    intro acc
    cases rest with
    | nil =>
      by_cases hw : work st = true
      · simp only [runPlanFrom, hw, if_true, List.map_cons, List.map_nil]
        exact List.Chain.cons (Nat.le_add_right _ _) List.Chain.nil
      · simp only [runPlanFrom, hw, Bool.false_eq_true, if_false,
          List.map_cons, List.map_nil]
        exact List.Chain.cons (Nat.le_refl _) List.Chain.nil
    | cons st2 rest2 =>
      by_cases hw : work st = true
      · simp only [runPlanFrom, hw, if_true, List.map_cons]
        exact List.Chain.cons (Nat.le_add_right _ _) (ih (acc + st.weight))
      · simp only [runPlanFrom, hw, Bool.false_eq_true, if_false,
          List.map_cons, List.map_nil]
        exact List.Chain.cons (Nat.le_refl _) List.Chain.nil

/-- Success lemma for C7: when every stage succeeds, the stream ends with a
`completed` event whose progress is the starting progress plus the total
plan weight. -/
theorem runPlanFrom_success (work : Stage → Bool) :
    ∀ (stages : List Stage) (acc : Nat), stages ≠ [] →
      (∀ st ∈ stages, work st = true) →
      ∃ pre e, runPlanFrom work stages acc = pre ++ [e] ∧
        e.status = JStatus.completed ∧
        e.progress = acc + sumWeights stages := by
  intro stages
  induction stages with
  | nil => intro acc hne; exact absurd rfl hne
  | cons st rest ih =>
    intro acc _ hall
    have hw : work st = true := hall st (List.mem_cons_self st rest)
    cases rest with
    | nil =>
      refine ⟨[], ⟨JStatus.completed, acc + st.weight, st.name⟩,
        by simp [runPlanFrom, hw], rfl, ?_⟩
      simp [sumWeights]
    | cons st2 rest2 =>
      obtain ⟨pre, e, heq, hst, hpr⟩ := ih (acc + st.weight) (by simp)
        (fun x hx => hall x (List.mem_cons_of_mem st hx))
      refine ⟨⟨JStatus.running, acc + st.weight, st.name⟩ :: pre, e,
        ?_, hst, ?_⟩
      · simp [runPlanFrom, hw, heq]
      · rw [hpr]
        simp only [sumWeights, List.map_cons, List.sum_cons]
        omega

/-- Claim C7 (spec-modelled Job Runner): for every Stage Plan whose
non-negative weights sum to 100, the emitted progress values are
non-decreasing, and a fully successful run ends with a `completed` event
at progress 100; in particular, on the reference 11-stage plan with
weights 5, 10, ..., 10, 5 a successful run emits exactly the progress
values 5, 15, 25, 35, 45, 55, 65, 75, 85, 95, 100, the last one with
status `completed`. -/
theorem progress_monotone_and_complete (work : Stage → Bool)
    (stages : List Stage) (hplan : sumWeights stages = 100) :
    List.Chain' (· ≤ ·)
        ((runPlan work stages).map ProgressEvent.progress) ∧
    ((∀ st ∈ stages, work st = true) →
      ∃ pre e, runPlan work stages = pre ++ [e] ∧
        e.status = JStatus.completed ∧ e.progress = 100) ∧
    (runPlan (fun _ => true) edaPlan).map ProgressEvent.progress
        = [5, 15, 25, 35, 45, 55, 65, 75, 85, 95, 100] ∧
    (runPlan (fun _ => true) edaPlan).getLast?
        = some ⟨JStatus.completed, 100, "Complete"⟩ := by
  refine ⟨?_, fun hall => ?_, by decide, by decide⟩
  · have hch : List.Chain' (· ≤ ·)
        (0 :: (runPlanFrom work stages 0).map ProgressEvent.progress) :=
      runPlanFrom_chain work stages 0
    exact hch.tail
  · have hne : stages ≠ [] := by
      intro h
      rw [h] at hplan
      simp [sumWeights] at hplan
    obtain ⟨pre, e, heq, hst, hpr⟩ :=
      runPlanFrom_success work stages 0 hne hall
    exact ⟨pre, e, heq, hst, by rw [hpr, hplan]⟩

/-- Witness for C7 on a fully successful run of the reference plan. -/
theorem progress_monotone_and_complete_witness :
    List.Chain' (· ≤ ·)
        ((runPlan (fun _ => true) edaPlan).map ProgressEvent.progress) ∧
    (∃ pre e, runPlan (fun _ => true) edaPlan = pre ++ [e] ∧
        e.status = JStatus.completed ∧ e.progress = 100) ∧
    (runPlan (fun _ => true) edaPlan).map ProgressEvent.progress
        = [5, 15, 25, 35, 45, 55, 65, 75, 85, 95, 100] :=
  ⟨(progress_monotone_and_complete (fun _ => true) edaPlan (by decide)).1,
   (progress_monotone_and_complete (fun _ => true) edaPlan (by decide)).2.1
     (by decide),
   (progress_monotone_and_complete (fun _ => true) edaPlan
     (by decide)).2.2.1⟩

end Claims

end AutoInsight
